import Mathlib

/-!
Verification development for rt-proxy (`src/proxy.py`), a bridge between a WebRTC
peer connection (aiortc) and a streaming GenAI audio session.

The embedding below translates the parts of `proxy.py` that the verified
properties are about:

* the egress framing loop `run_send_track` (lines 121-147): mime-type sample-rate
  parsing, the byte accumulator, the inner framing `while` loop, timestamp
  bookkeeping and the pacing `asyncio.sleep(AUDIO_PTIME)` after each emitted frame;
* the outbound `SendingTrack` queue (lines 25-33);
* `RTCConnection.close` (lines 167-171), modelled together with the possibility
  that the underlying `pc.close()` / `genai_session.close()` calls raise, and with
  the fact that `genai_session` has no class-level default attribute
  (lines 36-39 declare `recv_track`, `send_track`, `pc` but not `genai_session`,
  which is only assigned at line 155 after the GenAI connect succeeds);
* the data-channel message handler `on_message` (lines 69-72);
* `handle_offer` (lines 41-57), whose `asyncio.ensure_future(self._run())` at
  line 47 schedules the orchestrator (and hence the GenAI connect at line 151)
  before `setRemoteDescription` is awaited;
* the shutdown handler `on_shutdown` (lines 180-184).

Python `bytes` values are modelled as `List Nat`. The timestamp counter of the
egress loop starts at the integer 0 and is only ever advanced by
`sample_rate * AUDIO_PTIME` (line 143), so its value always lies on the grid of
multiples of 1/50; the embedding stores the counter scaled by 50 as a natural
number (`ts50`, `pts50`), which keeps the whole model executable over `Nat`,
and exposes the actual timestamp value as the rational `Frame.pts = pts50 / 50`.
At the sample rates evaluated below (multiples of 50, and 75) the IEEE-double
products `rate * 0.02` that the Python code computes are exactly the rationals
`rate / 50` used here, so the scaled model agrees with the source's float
arithmetic at every point the theorems touch.
-/

namespace RTProxy

/-- Python `bytes` modelled as a list of byte values. -/
abbrev ByteStr := List Nat

/-- The constant `AUDIO_PTIME = 0.02` (line 16), as the exact rational 1/50.
The IEEE double `0.02` is `1/50` up to a relative error of about `2e-17`; at the
concrete rates the theorems below evaluate, the double products `rate * 0.02`
round to exactly the rational values used here. -/
def AUDIO_PTIME : ℚ := 1 / 50

/-- An outbound audio frame as built in `run_send_track` lines 138-145:
`AudioFrame(format="s16", layout="mono", samples=samples)` with its payload
(`planes[0].update(buffer[:samples*2])`), sample rate, presentation timestamp
(stored scaled by 50: the assigned value `timestamp` is `pts50 / 50`, see
`Frame.pts`) and time base `Fraction(1, sample_rate)` (kept as the
denominator). -/
structure Frame where
  samples : Nat
  sample_rate : Nat
  payload : ByteStr
  pts50 : Nat
  time_base_den : Nat
  deriving Repr, DecidableEq

/-- The presentation timestamp assigned at line 144 (`frame.pts = timestamp`):
the running counter, which after k frames at rates r_1..r_k holds
`(r_1 + ... + r_k) * AUDIO_PTIME`; `pts50` stores that value scaled by 50. -/
def Frame.pts (f : Frame) : ℚ :=
  (f.pts50 : ℚ) / 50

/-- One item of the GenAI response stream as consumed by `run_send_track`:
`response.data` (`None` for non-audio server messages) and the declared mime
type `response.server_content.model_turn.parts[0].inline_data.mime_type`. -/
structure Response where
  data : Option ByteStr
  mime_type : String
  deriving Repr, DecidableEq

/-- Characters following `cs` up to (excluding) the next occurrence of the
substring `rate=`, mirroring how `str.split('rate=')` ends a field at the next
separator occurrence. -/
def untilRate : List Char → List Char
  | [] => []
  | c :: cs =>
    if c = 'r' ∧ cs.take 4 = ['a', 't', 'e', '='] then []
    else c :: untilRate cs

/-- The characters after the first occurrence of `rate=`, up to the next
occurrence: this is `mime_type.split('rate=')[1]` (line 132); `none` when
`rate=` does not occur, in which case the Python index `[1]` would raise. -/
def afterRate : List Char → Option (List Char)
  | [] => none
  | c :: cs =>
    if c = 'r' ∧ cs.take 4 = ['a', 't', 'e', '='] then some (untilRate (cs.drop 4))
    else afterRate cs

/-- Python `int(...)` on the rate field: a nonempty all-digit string parses to
its decimal value, anything else raises (`none`). -/
def digitsVal (cs : List Char) : Option Nat :=
  if cs ≠ [] ∧ cs.all Char.isDigit then
    some (cs.foldl (fun acc c => acc * 10 + (c.toNat - 48)) 0)
  else none

/-- `sample_rate = int(mime_type.split('rate=')[1])` (line 132). -/
def parseSampleRate (mime : String) : Option Nat :=
  (afterRate mime.data).bind digitsVal

/-- `samples = int(sample_rate * AUDIO_PTIME)` (line 133). For every natural
`rate`, the IEEE-double product `rate * 0.02` lies weakly above the exact value
`rate / 50` (the double `0.02` exceeds `1/50`) and never reaches the next
integer, so truncation yields exactly `rate / 50`. -/
def samplesPerFrame (rate : Nat) : Nat := rate / 50

/-- Observable events of the egress loop: a frame put on the sending track's
queue (line 146), the pacing sleep of `AUDIO_PTIME` seconds (line 147), and the
logging of a non-audio server message (line 128). -/
inductive Event where
  | put (f : Frame)
  | sleep
  | logMessage
  deriving Repr, DecidableEq

/-- The inner framing loop `while len(buffer) / 2 >= samples` of
`run_send_track` (lines 137-147): slice `samples*2` bytes off the front of the
accumulator, build a frame, advance the timestamp by `sample_rate * AUDIO_PTIME`
— scaled by 50 this is `ts50 + rate` — at line 143, executed before
`frame.pts = timestamp` at line 144; put the frame, sleep `AUDIO_PTIME`. Over
naturals the loop guard `len(buffer) / 2 >= samples` is
`samples * 2 ≤ buffer.length`. `fuel` bounds the number of iterations; one
byte of fuel per buffer byte always suffices because each iteration consumes
`samples * 2 ≥ 2` bytes when `0 < samples`. For `samples = 0` the source loop
never exits (it consumes nothing); the model's guard stops at that point and
returns the state reached, and the theorems about loop exit accordingly assume
`0 < samples`. -/
def drainLoopF : Nat → Nat → Nat → Nat → ByteStr → List Event × Nat × ByteStr
  | 0, _, _, ts50, buffer => ([], ts50, buffer)
  | fuel + 1, samples, rate, ts50, buffer =>
    if 0 < samples ∧ samples * 2 ≤ buffer.length then
      let payload := buffer.take (samples * 2)
      let rest := buffer.drop (samples * 2)
      let ts50' := ts50 + rate
      let f : Frame := ⟨samples, rate, payload, ts50', rate⟩
      let r := drainLoopF fuel samples rate ts50' rest
      (Event.put f :: Event.sleep :: r.1, r.2.1, r.2.2)
    else ([], ts50, buffer)

/-- The inner framing loop run to completion on a given accumulator. -/
def drainLoop (samples rate : Nat) (ts50 : Nat) (buffer : ByteStr) :
    List Event × Nat × ByteStr :=
  drainLoopF buffer.length samples rate ts50 buffer

/-- Processing of one response item by the egress loop (lines 126-147), acting
on the running state `(timestamp scaled by 50, buffer)`. A response without
audio data is logged and skipped (lines 127-129). For an audio response, the
sample rate is parsed from the mime type (`none` models the exception raised by
the Python indexing/`int` on an ill-formed mime type, which aborts the loop),
the payload is appended to the accumulator (line 135) and the framing loop
runs. -/
def processResponse (st : Nat × ByteStr) (resp : Response) :
    Option (List Event × Nat × ByteStr) :=
  match resp.data with
  | none => some ([Event.logMessage], st.1, st.2)
  | some d =>
    match parseSampleRate resp.mime_type with
    | none => none
    | some rate => some (drainLoop (samplesPerFrame rate) rate st.1 (st.2 ++ d))

/-- The egress loop `run_send_track` (lines 121-147) over the finite sequence of
response items observed, threading `(timestamp scaled by 50, buffer)` from the
given initial state (the source initialises `timestamp = 0`, `buffer = b''` at
lines 122-123) and concatenating the event traces. `none` models an exception
escaping the loop. -/
def run_send_track : List Response → Nat × ByteStr → Option (List Event × Nat × ByteStr)
  | [], st => some ([], st.1, st.2)
  | resp :: rest, st =>
    match processResponse st resp with
    | none => none
    | some (evs, ts, buf) =>
      match run_send_track rest (ts, buf) with
      | none => none
      | some (evs2, ts2, buf2) => some (evs ++ evs2, ts2, buf2)

/-- The frames put on the outbound queue, in emission order. -/
def putFrames : List Event → List Frame
  | [] => []
  | Event.put f :: es => f :: putFrames es
  | _ :: es => putFrames es

/-- Number of pacing sleeps in a trace. Each sleep requests `AUDIO_PTIME`
seconds (line 147). -/
def sleepCount : List Event → Nat
  | [] => 0
  | Event.sleep :: es => sleepCount es + 1
  | _ :: es => sleepCount es

/-- Total duration of the pacing sleeps in a trace, in seconds. Under the
contract of `asyncio.sleep` (it suspends for at least the requested duration),
this is a lower bound on the wall-clock time the loop spends. -/
def totalSleep (es : List Event) : ℚ :=
  (sleepCount es : ℚ) * AUDIO_PTIME

/-- Concatenation of the frames' payload bytes, in order. -/
def flattenPayloads (fs : List Frame) : ByteStr :=
  (fs.map Frame.payload).flatten

/-- Concatenation of the audio payloads carried by a response sequence
(non-audio responses contribute nothing). -/
def audioBytes (resps : List Response) : ByteStr :=
  (resps.map (fun r => r.data.getD [])).flatten

/-- The frames emitted by `run_send_track` on a response sequence, starting
from the initial state `timestamp = 0`, `buffer = b''`. -/
def runFrames (resps : List Response) : List Frame :=
  ((run_send_track resps (0, [])).map (fun out => putFrames out.1)).getD []

/-- The outbound queue owned by `SendingTrack` (lines 25-33): an
`asyncio.Queue` used single-producer single-consumer, modelled by its list of
queued frames. -/
structure SendingTrack where
  queue : List Frame
  deriving Repr, DecidableEq

/-- `queue.put(frame)` (line 146): append at the tail. -/
def SendingTrack.put (t : SendingTrack) (f : Frame) : SendingTrack :=
  ⟨t.queue ++ [f]⟩

/-- Successive puts, in emission order. -/
def SendingTrack.putAll (t : SendingTrack) (fs : List Frame) : SendingTrack :=
  fs.foldl SendingTrack.put t

/-- The frames handed to the transport by repeated `recv` calls
(`await self.queue.get()`, lines 32-33), in consumption order, until the queue
is empty. -/
def SendingTrack.recvAll : SendingTrack → List Frame
  | ⟨[]⟩ => []
  | ⟨f :: rest⟩ => f :: SendingTrack.recvAll ⟨rest⟩

/-- Timestamp chaining along a frame list, scaled by 50: each frame's scaled
timestamp is the previous scaled counter plus `sample_rate` (i.e. the counter
advances by `sample_rate * AUDIO_PTIME` per frame), exactly as line 143
advances the counter before line 144 assigns it. -/
def ptsChain50 (prev : Nat) : List Frame → Prop
  | [] => True
  | f :: fs => f.pts50 = prev + f.sample_rate ∧ ptsChain50 f.pts50 fs

/-- The scaled timestamp counter after emitting a list of frames: the last
frame's `pts50`, or the starting value when no frame was emitted. -/
def lastPts50 (prev : Nat) : List Frame → Nat
  | [] => prev
  | f :: fs => lastPts50 f.pts50 fs

/-- The attribute state of an `RTCConnection` relevant to `close` and the
data-channel handler. `pc` records whether `self.pc` holds a peer connection
(the class default at line 39 is `None`, i.e. `false` here; `handle_offer`
line 45 sets it). `genaiAssigned` records whether the instance attribute
`self.genai_session` has ever been assigned: the class body (lines 36-39)
declares defaults for `recv_track`, `send_track` and `pc` but not for
`genai_session`, which is only assigned at line 155 once the GenAI connect has
succeeded — before that, reading `self.genai_session` raises `AttributeError`.
When assigned, it always holds a live (truthy) session object. -/
structure ConnState where
  pc : Bool
  genaiAssigned : Bool
  deriving Repr, DecidableEq

/-- Exceptions distinguished by the model: the `AttributeError` from reading
the never-assigned `genai_session` attribute, and any exception raised by a
collaborator's `close()` call. -/
inductive PyError where
  | attributeError
  | externalError
  deriving Repr, DecidableEq

/-- Whether the collaborators' `close()` calls raise when awaited, used to
examine `RTCConnection.close` under partial failure. -/
structure CloseBehavior where
  pcCloseRaises : Bool
  genaiCloseRaises : Bool
  deriving Repr, DecidableEq

/-- The sub-close calls `RTCConnection.close` can attempt. -/
inductive CloseAction where
  | closePC
  | closeGenai
  deriving Repr, DecidableEq

/-- `RTCConnection.close` (lines 167-171):

    async def close(self):
        if self.pc:
            await self.pc.close()
        if self.genai_session:
            await self.genai_session.close()

The result is the list of sub-closes attempted, in order, together with the
exception that propagated out of `close`, if any. There is no exception
handling in the source: an exception from `self.pc.close()` propagates and the
second `if` is never reached; reading `self.genai_session` raises
`AttributeError` when the attribute was never assigned. -/
def close (st : ConnState) (b : CloseBehavior) : List CloseAction × Option PyError :=
  if st.pc then
    if b.pcCloseRaises then ([CloseAction.closePC], some PyError.externalError)
    else if st.genaiAssigned then
      if b.genaiCloseRaises then
        ([CloseAction.closePC, CloseAction.closeGenai], some PyError.externalError)
      else ([CloseAction.closePC, CloseAction.closeGenai], none)
    else ([CloseAction.closePC], some PyError.attributeError)
  else
    if st.genaiAssigned then
      if b.genaiCloseRaises then ([CloseAction.closeGenai], some PyError.externalError)
      else ([CloseAction.closeGenai], none)
    else ([], some PyError.attributeError)

/-- The shutdown handler `on_shutdown` (lines 180-184): gather the `close()`
coroutines of every registered connection, then clear the registry.
`asyncio.gather` starts every coroutine (so every connection's close is
attempted), but with the default `return_exceptions=False` the first exception
propagates out of the `await`, and then `connections.clear()` at line 184 is
never executed. The result is (the attempted close traces, the registry after
the handler, the propagated exception if any). -/
def on_shutdown (conns : List (ConnState × CloseBehavior)) :
    List (List CloseAction) × List (ConnState × CloseBehavior) × Option PyError :=
  let results := conns.map (fun c => close c.1 c.2)
  if results.all (fun r => r.2.isNone) then (results.map Prod.fst, [], none)
  else (results.map Prod.fst, conns, (results.filterMap Prod.snd).head?)

/-- Steps performed by the `handle_offer` coroutine itself (lines 41-57), in
order. `asyncio.ensure_future(self._run())` (line 47) is executed *before*
`await self.pc.setRemoteDescription(offer)` (line 49); on negotiation failure
the `setRemoteDescription` (or `createAnswer`) await raises and the coroutine
ends there, but the already-scheduled orchestrator future is unaffected. -/
inductive OfferEvent where
  | scheduleOrchestrator
  | setRemoteDescription
  | createAnswer
  | setLocalDescription
  deriving Repr, DecidableEq

/-- The ordered steps `handle_offer` performs, per negotiation outcome. -/
def handle_offer_events (negotiationOk : Bool) : List OfferEvent :=
  if negotiationOk then
    [OfferEvent.scheduleOrchestrator, OfferEvent.setRemoteDescription,
     OfferEvent.createAnswer, OfferEvent.setLocalDescription]
  else
    [OfferEvent.scheduleOrchestrator, OfferEvent.setRemoteDescription]

/-- Whether the GenAI connect is attempted for a given negotiation outcome:
the event loop runs every future scheduled with `ensure_future` regardless of
whether the scheduling coroutine later raises, and the orchestrator `_run`
proceeds directly to `client.aio.live.connect(...)` (line 151); so the connect
is attempted exactly when the orchestrator was scheduled. -/
def aiConnectAttempted (negotiationOk : Bool) : Bool :=
  (handle_offer_events negotiationOk).contains OfferEvent.scheduleOrchestrator

/-- Possible outcomes of the data-channel message handler. -/
inductive MessageOutcome where
  | forwarded
  | dropped
  | raised (e : PyError)
  deriving Repr, DecidableEq

/-- The data-channel message handler `on_message` (lines 69-72):

    async def on_message(message):
        if self.genai_session:
            await self.genai_session.send(input=message, end_of_turn=True)

Reading `self.genai_session` raises `AttributeError` when the attribute was
never assigned; once assigned it holds a live session (truthy), so the message
is forwarded. The `dropped` outcome (guard evaluates falsy) is never produced:
the attribute is never assigned a falsy value. -/
def on_message (st : ConnState) : MessageOutcome :=
  if st.genaiAssigned then MessageOutcome.forwarded
  else MessageOutcome.raised PyError.attributeError

/-! ### Helper lemmas about the event-trace views -/

theorem putFrames_nil : putFrames [] = [] := rfl

theorem putFrames_put (f : Frame) (es : List Event) :
    putFrames (Event.put f :: es) = f :: putFrames es := rfl

theorem putFrames_append (es1 es2 : List Event) :
    putFrames (es1 ++ es2) = putFrames es1 ++ putFrames es2 := by
  induction es1 with
  | nil => rfl
  | cons e es ih => cases e <;> simp [putFrames, ih]

theorem sleepCount_append (es1 es2 : List Event) :
    sleepCount (es1 ++ es2) = sleepCount es1 + sleepCount es2 := by
  induction es1 with
  | nil => simp [sleepCount]
  | cons e es ih =>
    cases e with
    | put f => simp [sleepCount, ih]
    | sleep => simp [sleepCount, ih]; omega
    | logMessage => simp [sleepCount, ih]

theorem flattenPayloads_nil : flattenPayloads [] = [] := rfl

theorem flattenPayloads_cons (f : Frame) (fs : List Frame) :
    flattenPayloads (f :: fs) = f.payload ++ flattenPayloads fs := by
  simp [flattenPayloads]

theorem flattenPayloads_append (fs1 fs2 : List Frame) :
    flattenPayloads (fs1 ++ fs2) = flattenPayloads fs1 ++ flattenPayloads fs2 := by
  simp [flattenPayloads]

theorem audioBytes_cons (resp : Response) (rest : List Response) :
    audioBytes (resp :: rest) = resp.data.getD [] ++ audioBytes rest := by
  simp [audioBytes]

theorem lastPts50_append (prev : Nat) (xs ys : List Frame) :
    lastPts50 prev (xs ++ ys) = lastPts50 (lastPts50 prev xs) ys := by
  induction xs generalizing prev with
  | nil => rfl
  | cons f fs ih => simp [lastPts50, ih]

theorem ptsChain50_append {prev : Nat} {xs ys : List Frame}
    (hx : ptsChain50 prev xs) (hy : ptsChain50 (lastPts50 prev xs) ys) :
    ptsChain50 prev (xs ++ ys) := by
  induction xs generalizing prev with
  | nil => exact hy
  | cons f fs ih => exact ⟨hx.1, ih hx.2 hy⟩

/-! ### Specification of the inner framing loop -/

theorem drainLoopF_fields (fuel samples rate ts50 : Nat) (buf : ByteStr) :
    ∀ f ∈ putFrames (drainLoopF fuel samples rate ts50 buf).1,
      f.sample_rate = rate ∧ f.samples = samples ∧
      f.payload.length = samples * 2 ∧ f.time_base_den = rate := by
  induction fuel generalizing ts50 buf with
  | zero => simp [drainLoopF, putFrames]
  | succ fuel ih =>
    by_cases h : 0 < samples ∧ samples * 2 ≤ buf.length
    · simp only [drainLoopF, if_pos h, putFrames, List.mem_cons]
      rintro f (rfl | hf)
      · exact ⟨rfl, rfl, by simp [List.length_take, Nat.min_eq_left h.2], rfl⟩
      · exact ih _ _ f hf
    · simp [drainLoopF, if_neg h, putFrames]

theorem drainLoopF_chain (fuel samples rate ts50 : Nat) (buf : ByteStr) :
    ptsChain50 ts50 (putFrames (drainLoopF fuel samples rate ts50 buf).1) := by
  induction fuel generalizing ts50 buf with
  | zero => simp [drainLoopF, putFrames, ptsChain50]
  | succ fuel ih =>
    by_cases h : 0 < samples ∧ samples * 2 ≤ buf.length
    · simp only [drainLoopF, if_pos h, putFrames]
      exact ⟨rfl, ih _ _⟩
    · simp [drainLoopF, if_neg h, putFrames, ptsChain50]

theorem drainLoopF_lastPts50 (fuel samples rate ts50 : Nat) (buf : ByteStr) :
    (drainLoopF fuel samples rate ts50 buf).2.1 =
      lastPts50 ts50 (putFrames (drainLoopF fuel samples rate ts50 buf).1) := by
  induction fuel generalizing ts50 buf with
  | zero => simp [drainLoopF, putFrames, lastPts50]
  | succ fuel ih =>
    by_cases h : 0 < samples ∧ samples * 2 ≤ buf.length
    · simp only [drainLoopF, if_pos h, putFrames, lastPts50]
      exact ih _ _
    · simp [drainLoopF, if_neg h, putFrames, lastPts50]

theorem drainLoopF_conserves (fuel samples rate ts50 : Nat) (buf : ByteStr) :
    flattenPayloads (putFrames (drainLoopF fuel samples rate ts50 buf).1) ++
      (drainLoopF fuel samples rate ts50 buf).2.2 = buf := by
  induction fuel generalizing ts50 buf with
  | zero => simp [drainLoopF, putFrames, flattenPayloads]
  | succ fuel ih =>
    by_cases h : 0 < samples ∧ samples * 2 ≤ buf.length
    · simp only [drainLoopF, if_pos h, putFrames, flattenPayloads_cons]
      rw [List.append_assoc, ih]
      exact List.take_append_drop _ _
    · simp [drainLoopF, if_neg h, putFrames, flattenPayloads]

theorem drainLoopF_sleepCount (fuel samples rate ts50 : Nat) (buf : ByteStr) :
    sleepCount (drainLoopF fuel samples rate ts50 buf).1 =
      (putFrames (drainLoopF fuel samples rate ts50 buf).1).length := by
  induction fuel generalizing ts50 buf with
  | zero => simp [drainLoopF, putFrames, sleepCount]
  | succ fuel ih =>
    by_cases h : 0 < samples ∧ samples * 2 ≤ buf.length
    · simp only [drainLoopF, if_pos h, putFrames, sleepCount, List.length_cons]
      rw [ih]
    · simp [drainLoopF, if_neg h, putFrames, sleepCount]

theorem drainLoopF_nil (fuel samples rate ts50 : Nat) :
    drainLoopF fuel samples rate ts50 [] = ([], ts50, []) := by
  cases fuel with
  | zero => rfl
  | succ fuel =>
    simp only [drainLoopF, List.length_nil]
    rw [if_neg]
    omega

theorem drainLoop_nil (samples rate ts50 : Nat) :
    drainLoop samples rate ts50 [] = ([], ts50, []) :=
  drainLoopF_nil _ _ _ _

theorem drainLoopF_fuel_irrel :
    ∀ (fuel fuel' samples rate ts50 : Nat) (buf : ByteStr),
      buf.length ≤ fuel → buf.length ≤ fuel' →
      drainLoopF fuel samples rate ts50 buf =
        drainLoopF fuel' samples rate ts50 buf := by
  intro fuel
  induction fuel with
  | zero =>
    intro fuel' samples rate ts50 buf h h'
    have hb : buf = [] := List.eq_nil_of_length_eq_zero (Nat.le_zero.mp h)
    subst hb
    rw [drainLoopF_nil, drainLoopF_nil]
  | succ fuel ih =>
    intro fuel' samples rate ts50 buf h h'
    cases buf with
    | nil => rw [drainLoopF_nil, drainLoopF_nil]
    | cons b bs =>
      cases fuel' with
      | zero => simp at h'
      | succ fuel2 =>
        simp only [drainLoopF, List.length_cons]
        by_cases hg : 0 < samples ∧ samples * 2 ≤ bs.length + 1
        · rw [if_pos hg, if_pos hg]
          obtain ⟨hs, hl⟩ := hg
          have hlen : ((b :: bs).drop (samples * 2)).length = bs.length + 1 - samples * 2 := by
            simp [List.length_drop]
          have h1 : ((b :: bs).drop (samples * 2)).length ≤ fuel := by
            rw [hlen]
            simp only [List.length_cons] at h
            omega
          have h2 : ((b :: bs).drop (samples * 2)).length ≤ fuel2 := by
            rw [hlen]
            simp only [List.length_cons] at h'
            omega
          rw [ih fuel2 samples rate (ts50 + rate) _ h1 h2]
        · rw [if_neg hg, if_neg hg]

theorem drainLoop_unfold (samples rate ts50 : Nat) (buf : ByteStr) :
    drainLoop samples rate ts50 buf =
      if 0 < samples ∧ samples * 2 ≤ buf.length then
        (Event.put ⟨samples, rate, buf.take (samples * 2), ts50 + rate, rate⟩ ::
          Event.sleep ::
          (drainLoop samples rate (ts50 + rate) (buf.drop (samples * 2))).1,
         (drainLoop samples rate (ts50 + rate) (buf.drop (samples * 2))).2.1,
         (drainLoop samples rate (ts50 + rate) (buf.drop (samples * 2))).2.2)
      else ([], ts50, buf) := by
  cases buf with
  | nil =>
    simp only [drainLoop_nil, List.length_nil]
    rw [if_neg]
    omega
  | cons b bs =>
    simp only [drainLoop, List.length_cons, drainLoopF]
    by_cases hg : 0 < samples ∧ samples * 2 ≤ bs.length + 1
    · rw [if_pos hg, if_pos hg]
      obtain ⟨hs, hl⟩ := hg
      have h1 : ((b :: bs).drop (samples * 2)).length ≤ bs.length := by
        simp only [List.length_drop, List.length_cons]
        omega
      rw [drainLoopF_fuel_irrel bs.length ((b :: bs).drop (samples * 2)).length
        samples rate (ts50 + rate) _ h1 (le_refl _)]
    · rw [if_neg hg, if_neg hg]

theorem drainLoopF_residual (fuel samples rate ts50 : Nat) (buf : ByteStr)
    (hs : 0 < samples) (hfuel : buf.length ≤ fuel) :
    ((drainLoopF fuel samples rate ts50 buf).2.2).length < samples * 2 := by
  induction fuel generalizing ts50 buf with
  | zero =>
    have : buf.length = 0 := Nat.le_zero.mp hfuel
    simp only [drainLoopF]
    omega
  | succ fuel ih =>
    by_cases h : 0 < samples ∧ samples * 2 ≤ buf.length
    · simp only [drainLoopF, if_pos h]
      exact ih _ _ (by simp [List.length_drop]; omega)
    · simp only [drainLoopF, if_neg h]
      omega

/-! ### Specification of the egress loop over a response sequence -/

theorem processResponse_spec (st : Nat × ByteStr) (resp : Response)
    (out : List Event × Nat × ByteStr) (h : processResponse st resp = some out) :
    (∀ f ∈ putFrames out.1, ∃ d rate, resp.data = some d ∧
        parseSampleRate resp.mime_type = some rate ∧ f.sample_rate = rate ∧
        f.samples = samplesPerFrame rate ∧ f.payload.length = f.samples * 2) ∧
    ptsChain50 st.1 (putFrames out.1) ∧
    out.2.1 = lastPts50 st.1 (putFrames out.1) ∧
    flattenPayloads (putFrames out.1) ++ out.2.2 = st.2 ++ resp.data.getD [] ∧
    sleepCount out.1 = (putFrames out.1).length := by
  obtain ⟨data, mime⟩ := resp
  cases data with
  | none =>
    simp only [processResponse, Option.some.injEq] at h
    subst h
    simp [putFrames, ptsChain50, lastPts50, flattenPayloads, sleepCount]
  | some d =>
    simp only [processResponse] at h
    cases hp : parseSampleRate mime with
    | none => rw [hp] at h; exact absurd h (by simp)
    | some rate =>
      rw [hp] at h
      simp only [Option.some.injEq] at h
      subst h
      refine ⟨?_, ?_, ?_, ?_, ?_⟩
      · intro f hf
        obtain ⟨h1, h2, h3, _⟩ :=
          drainLoopF_fields (st.2 ++ d).length (samplesPerFrame rate) rate st.1
            (st.2 ++ d) f hf
        exact ⟨d, rate, rfl, rfl, h1, h2, by rw [h3, h2]⟩
      · exact drainLoopF_chain _ _ _ _ _
      · exact drainLoopF_lastPts50 _ _ _ _ _
      · exact drainLoopF_conserves (st.2 ++ d).length (samplesPerFrame rate)
          rate st.1 (st.2 ++ d)
      · exact drainLoopF_sleepCount _ _ _ _ _

theorem run_send_track_spec :
    ∀ (resps : List Response) (st : Nat × ByteStr) (out : List Event × Nat × ByteStr),
      run_send_track resps st = some out →
      (∀ f ∈ putFrames out.1, ∃ resp ∈ resps, ∃ d rate, resp.data = some d ∧
          parseSampleRate resp.mime_type = some rate ∧ f.sample_rate = rate ∧
          f.samples = samplesPerFrame rate ∧ f.payload.length = f.samples * 2) ∧
      ptsChain50 st.1 (putFrames out.1) ∧
      out.2.1 = lastPts50 st.1 (putFrames out.1) ∧
      flattenPayloads (putFrames out.1) ++ out.2.2 = st.2 ++ audioBytes resps ∧
      sleepCount out.1 = (putFrames out.1).length := by
  intro resps
  induction resps with
  | nil =>
    intro st out h
    simp only [run_send_track, Option.some.injEq] at h
    subst h
    simp [putFrames, ptsChain50, lastPts50, flattenPayloads, sleepCount, audioBytes]
  | cons resp rest ih =>
    intro st out h
    simp only [run_send_track] at h
    cases hp : processResponse st resp with
    | none => rw [hp] at h; exact absurd h (by simp)
    | some o1 =>
      rw [hp] at h
      obtain ⟨evs, ts, buf⟩ := o1
      simp only [] at h
      cases hr : run_send_track rest (ts, buf) with
      | none => rw [hr] at h; exact absurd h (by simp)
      | some o2 =>
        rw [hr] at h
        obtain ⟨evs2, ts2, buf2⟩ := o2
        simp only [Option.some.injEq] at h
        subst h
        obtain ⟨pmem, pchain, plast, pcons, psleep⟩ :=
          processResponse_spec st resp (evs, ts, buf) hp
        obtain ⟨imem, ichain, ilast, icons, isleep⟩ := ih (ts, buf) (evs2, ts2, buf2) hr
        refine ⟨?_, ?_, ?_, ?_, ?_⟩
        · intro f hf
          rw [putFrames_append, List.mem_append] at hf
          rcases hf with hf | hf
          · obtain ⟨d, rate, hd, hrate, h1, h2, h3⟩ := pmem f hf
            exact ⟨resp, List.mem_cons_self resp rest, d, rate, hd, hrate, h1, h2, h3⟩
          · obtain ⟨resp', hmem, d, rate, hd, hrate, h1, h2, h3⟩ := imem f hf
            exact ⟨resp', List.mem_cons_of_mem resp hmem, d, rate, hd, hrate, h1, h2, h3⟩
        · rw [putFrames_append]
          refine ptsChain50_append pchain ?_
          rw [← plast]
          exact ichain
        · rw [putFrames_append, lastPts50_append, ← plast]
          exact ilast
        · rw [putFrames_append, flattenPayloads_append, audioBytes_cons,
            List.append_assoc, icons, ← List.append_assoc, pcons, List.append_assoc]
        · rw [sleepCount_append, putFrames_append, List.length_append, psleep, isleep]

/-! ### The outbound queue is FIFO -/

theorem putAll_queue (fs : List Frame) : ∀ q : List Frame,
    (SendingTrack.putAll ⟨q⟩ fs).queue = q ++ fs := by
  induction fs with
  | nil => intro q; simp [SendingTrack.putAll]
  | cons f fs ih =>
    intro q
    simp only [SendingTrack.putAll, List.foldl_cons] at ih ⊢
    have := ih (q ++ [f])
    simpa [SendingTrack.put] using this

theorem recvAll_queue (l : List Frame) : SendingTrack.recvAll ⟨l⟩ = l := by
  induction l with
  | nil => simp [SendingTrack.recvAll]
  | cons f fs ih => simp [SendingTrack.recvAll, ih]

theorem queue_fifo (fs : List Frame) :
    SendingTrack.recvAll (SendingTrack.putAll ⟨[]⟩ fs) = fs := by
  have h := putAll_queue fs []
  rcases hq : SendingTrack.putAll ⟨[]⟩ fs with ⟨q⟩
  rw [hq] at h
  simp only [List.nil_append] at h
  subst h
  exact recvAll_queue _

/-! ### Timestamp strides in terms of sample counts -/

theorem pts_step {a b : Frame} (h : b.pts50 = a.pts50 + b.sample_rate)
    (h50 : 50 ∣ b.sample_rate) (hs : b.samples = samplesPerFrame b.sample_rate) :
    b.pts = a.pts + (b.samples : ℚ) := by
  rw [Frame.pts, Frame.pts, h, hs, samplesPerFrame,
    Nat.cast_div h50 (by norm_num)]
  push_cast
  ring

theorem ptsChain50_chain' :
    ∀ (fs : List Frame) (prev : Nat), ptsChain50 prev fs →
      (∀ f ∈ fs, 50 ∣ f.sample_rate ∧ f.samples = samplesPerFrame f.sample_rate) →
      List.Chain' (fun a b : Frame => b.pts = a.pts + (b.samples : ℚ)) fs := by
  intro fs
  induction fs with
  | nil => intro prev _ _; simp
  | cons f fs ih =>
    intro prev hc hall
    cases fs with
    | nil => simp
    | cons g t =>
      rw [List.chain'_cons]
      constructor
      · obtain ⟨h50, hs⟩ := hall g (by simp)
        exact pts_step hc.2.1 h50 hs
      · exact ih f.pts50 hc.2 (fun x hx => hall x (List.mem_cons_of_mem f hx))

/-! ### Concrete runs used by several claims -/

/-- Helper computation: the second framing iteration of the scenario-3 run. -/
theorem drainLoop_scenario3_second :
    drainLoop 480 24000 24000 (List.replicate 960 (0 : Nat)) =
      ([Event.put ⟨480, 24000, List.replicate 960 0, 48000, 24000⟩, Event.sleep],
       48000, []) := by
  rw [drainLoop_unfold, if_pos (by rw [List.length_replicate]; omega)]
  rw [show (480 * 2 : Nat) = 960 by norm_num, List.take_replicate, List.drop_replicate,
    Nat.min_self, Nat.sub_self, List.replicate_zero, drainLoop_nil,
    show (24000 + 24000 : Nat) = 48000 by norm_num]

/-- Helper computation: the full framing pass of the scenario-3 run. -/
theorem drainLoop_scenario3 :
    drainLoop 480 24000 0 (List.replicate 1920 (0 : Nat)) =
      ([Event.put ⟨480, 24000, List.replicate 960 0, 24000, 24000⟩, Event.sleep,
        Event.put ⟨480, 24000, List.replicate 960 0, 48000, 24000⟩, Event.sleep],
       48000, []) := by
  rw [drainLoop_unfold, if_pos (by rw [List.length_replicate]; omega)]
  rw [show (480 * 2 : Nat) = 960 by norm_num, List.take_replicate, List.drop_replicate,
    Nat.min_eq_left (by norm_num : (960 : Nat) ≤ 1920),
    show (1920 - 960 : Nat) = 960 by norm_num, Nat.zero_add,
    drainLoop_scenario3_second]

/-- The end-to-end scenario-3 run: one response, mime "audio/pcm;rate=24000",
1920 payload bytes, from timestamp 0 and empty buffer. The two emitted frames
carry scaled timestamps 24000 and 48000, i.e. `pts` values 480 and 960. -/
theorem runFrames_scenario3 :
    runFrames [⟨some (List.replicate 1920 0), "audio/pcm;rate=24000"⟩] =
      [⟨480, 24000, List.replicate 960 0, 24000, 24000⟩,
       ⟨480, 24000, List.replicate 960 0, 48000, 24000⟩] := by
  have hparse : parseSampleRate "audio/pcm;rate=24000" = some 24000 := by decide
  have hsam : samplesPerFrame 24000 = 480 := by norm_num [samplesPerFrame]
  have hrun : run_send_track
      [⟨some (List.replicate 1920 0), "audio/pcm;rate=24000"⟩] (0, []) =
      some ([Event.put ⟨480, 24000, List.replicate 960 0, 24000, 24000⟩, Event.sleep,
        Event.put ⟨480, 24000, List.replicate 960 0, 48000, 24000⟩, Event.sleep],
        48000, []) := by
    simp only [run_send_track, processResponse, hparse, hsam, List.nil_append,
      drainLoop_scenario3, List.append_nil]
  rw [runFrames, hrun]
  simp only [Option.map_some', Option.getD_some]
  simp only [putFrames]

/-- A run at the declared rate 75 (samples_in_frame = int(75 * 0.02) = 1) on a
4-byte payload: two 2-byte frames with scaled timestamps 75 and 150, i.e. `pts`
values 3/2 and 3. -/
theorem runFrames_rate75 :
    runFrames [⟨some [0, 0, 0, 0], "audio/pcm;rate=75"⟩] =
      [⟨1, 75, [0, 0], 75, 75⟩, ⟨1, 75, [0, 0], 150, 75⟩] := by decide

/-! ### Claims -/

/-- Claim C1, counterexample: feeding the egress loop a single response with
mime type "audio/pcm;rate=24000" and a 1920-byte payload, from timestamp 0 and
an empty buffer, does NOT yield presentation timestamps 0 and 480: line 143
advances the counter before line 144 assigns it, so the first frame's pts is
already 480 (and the second 960). -/
theorem c1_counterexample_first_pts_not_zero :
    (runFrames [⟨some (List.replicate 1920 0), "audio/pcm;rate=24000"⟩]).map
      Frame.pts ≠ [0, 480] := by
  rw [runFrames_scenario3]
  intro hcontra
  rw [List.map_cons, List.map_cons, List.map_nil, List.cons.injEq] at hcontra
  have h0 := hcontra.1
  rw [Frame.pts] at h0
  norm_num at h0

/-- Claim C1, amended: the same single-response run yields exactly 2 frames of
480 samples each, with presentation timestamps 480 and 960. -/
theorem c1_two_frames_pts_480_960 :
    (runFrames [⟨some (List.replicate 1920 0), "audio/pcm;rate=24000"⟩]).length
        = 2 ∧
    (runFrames [⟨some (List.replicate 1920 0), "audio/pcm;rate=24000"⟩]).map
        Frame.samples = [480, 480] ∧
    (runFrames [⟨some (List.replicate 1920 0), "audio/pcm;rate=24000"⟩]).map
        Frame.pts = [480, 960] := by
  rw [runFrames_scenario3]
  refine ⟨rfl, rfl, ?_⟩
  simp only [List.map_cons, List.map_nil, Frame.pts, List.cons.injEq]
  norm_num

/-- Claim C2, code bug: close() is claimed idempotent and safe from every
lifecycle state, including one where the AI session was never opened; but on a
connection whose `genai_session` attribute was never assigned, every call to
close() — already the first — raises AttributeError at the guard
`if self.genai_session:` (line 170), both on a fresh connection (`pc` unset)
and after `handle_offer` set `pc` (there the transport close is attempted
first, then the attribute read raises). -/
theorem c2_close_raises_before_ai_session :
    close ⟨false, false⟩ ⟨false, false⟩ = ([], some PyError.attributeError) ∧
    close ⟨true, false⟩ ⟨false, false⟩ =
      ([CloseAction.closePC], some PyError.attributeError) := by decide

/-- Claim C3, counterexample: with both sessions present, when the transport
close raises, close() propagates the exception and never attempts the AI
session close — the two attempts are not independent. -/
theorem c3_counterexample_genai_close_skipped :
    close ⟨true, true⟩ ⟨true, false⟩ =
      ([CloseAction.closePC], some PyError.externalError) ∧
    CloseAction.closeGenai ∉ (close ⟨true, true⟩ ⟨true, false⟩).1 := by decide

/-- Claim C3, amended: close() awaits the transport close first and the AI
session close second, with no exception handling in between: if the transport
close succeeds, the AI close is attempted even when it itself raises; but if
the transport close raises, the AI close is not attempted. -/
theorem c3_close_attempts (b : CloseBehavior) :
    (b.pcCloseRaises = false →
      (close ⟨true, true⟩ b).1 = [CloseAction.closePC, CloseAction.closeGenai]) ∧
    (b.pcCloseRaises = true → (close ⟨true, true⟩ b).1 = [CloseAction.closePC]) := by
  obtain ⟨p, g⟩ := b
  cases p <;> cases g <;> simp [close]

/-- Witness for `c3_close_attempts` at concrete close behaviours. -/
theorem c3_close_attempts_witness :
    (close ⟨true, true⟩ ⟨false, true⟩).1 =
      [CloseAction.closePC, CloseAction.closeGenai] ∧
    (close ⟨true, true⟩ ⟨true, false⟩).1 = [CloseAction.closePC] :=
  ⟨(c3_close_attempts ⟨false, true⟩).1 rfl, (c3_close_attempts ⟨true, false⟩).2 rfl⟩

/-- Claim C4, counterexample: a response declaring rate=75 (samples_in_frame =
int(75 * 0.02) = 1) advances the timestamp by 75 * 0.02 = 1.5 per frame, so the
consecutive timestamp difference (3 − 3/2 = 3/2) is not the frame's sample
count 1. -/
theorem c4_counterexample_rate75 :
    (runFrames [⟨some [0, 0, 0, 0], "audio/pcm;rate=75"⟩]).map Frame.pts
        = [3/2, 3] ∧
    (runFrames [⟨some [0, 0, 0, 0], "audio/pcm;rate=75"⟩]).map Frame.samples
        = [1, 1] ∧
    ¬ List.Chain' (fun a b : Frame => b.pts = a.pts + (b.samples : ℚ))
        (runFrames [⟨some [0, 0, 0, 0], "audio/pcm;rate=75"⟩]) := by
  rw [runFrames_rate75]
  refine ⟨?_, rfl, ?_⟩
  · simp only [List.map_cons, List.map_nil, Frame.pts, List.cons.injEq]
    norm_num
  · intro hchain
    rw [List.chain'_cons] at hchain
    have hrel := hchain.1
    rw [Frame.pts, Frame.pts] at hrel
    norm_num at hrel

/-- Claim C4, amended: for every response sequence whose audio responses
declare sample rates that are positive multiples of 50 (every real PCM rate
is), each emitted frame's presentation timestamp exceeds the previous frame's
by exactly that frame's sample count, and the frames pass through the outbound
queue in emission order with no reordering. (In general the per-frame advance
is sample_rate * 0.02, which differs from samples_in_frame =
int(sample_rate * 0.02) when the rate is not divisible by 50.) -/
theorem c4_pts_stride_and_fifo (resps : List Response)
    (h : ∀ resp ∈ resps, ∀ d, resp.data = some d →
        ∃ rate, parseSampleRate resp.mime_type = some rate ∧ 0 < rate ∧ 50 ∣ rate)
    (out : List Event × Nat × ByteStr)
    (hrun : run_send_track resps (0, []) = some out) :
    List.Chain' (fun a b : Frame => b.pts = a.pts + (b.samples : ℚ))
      (putFrames out.1) ∧
    SendingTrack.recvAll (SendingTrack.putAll ⟨[]⟩ (putFrames out.1)) =
      putFrames out.1 := by
  obtain ⟨hmem, hchain, _, _, _⟩ := run_send_track_spec resps (0, []) out hrun
  constructor
  · refine ptsChain50_chain' (putFrames out.1) 0 hchain ?_
    intro f hf
    obtain ⟨resp, hresp, d, rate, hd, hrate, h1, h2, _⟩ := hmem f hf
    obtain ⟨rate2, hrate2, hpos, h50⟩ := h resp hresp d hd
    rw [hrate, Option.some.injEq] at hrate2
    subst hrate2
    rw [h1, h2]
    exact ⟨h50, rfl⟩
  · exact queue_fifo _

/-- Witness for `c4_pts_stride_and_fifo` on one concrete rate-50 response. -/
theorem c4_pts_stride_and_fifo_witness :
    List.Chain' (fun a b : Frame => b.pts = a.pts + (b.samples : ℚ))
      (putFrames [Event.put ⟨1, 50, [7, 8], 50, 50⟩, Event.sleep]) ∧
    SendingTrack.recvAll (SendingTrack.putAll ⟨[]⟩
        (putFrames [Event.put ⟨1, 50, [7, 8], 50, 50⟩, Event.sleep])) =
      putFrames [Event.put ⟨1, 50, [7, 8], 50, 50⟩, Event.sleep] :=
  c4_pts_stride_and_fifo [⟨some [7, 8], "audio/pcm;rate=50"⟩]
    (by
      intro resp hresp d hd
      rw [List.mem_singleton] at hresp
      subst hresp
      exact ⟨50, by decide, by decide, by decide⟩)
    ([Event.put ⟨1, 50, [7, 8], 50, 50⟩, Event.sleep], 50, [])
    (by decide)

/-- Claim C5, counterexample: on negotiation failure the AI session connect is
still attempted — `asyncio.ensure_future(self._run())` (line 47) runs before
`setRemoteDescription` (line 49) is awaited, so the orchestrator (whose first
operation is the GenAI connect, line 151) is scheduled regardless of the
negotiation outcome. -/
theorem c5_counterexample_connect_despite_failure :
    aiConnectAttempted false = true ∧
    handle_offer_events false =
      [OfferEvent.scheduleOrchestrator, OfferEvent.setRemoteDescription] := by decide

/-- Claim C5, amended: for either negotiation outcome, scheduling the
orchestrator is the first step `handle_offer` performs — before the remote
description is set or an answer is created — and the AI session connect is
attempted whether or not negotiation succeeds. -/
theorem c5_orchestrator_scheduled_first (ok : Bool) :
    (handle_offer_events ok).head? = some OfferEvent.scheduleOrchestrator ∧
    aiConnectAttempted ok = true := by
  cases ok <;> decide

/-- Claim C6: whenever the inner framing while-loop exits (it does for
0 < samples; at samples = 0 the source loop never exits), the byte accumulator
holds strictly fewer than one frame's worth (samples * 2) of bytes — for every
starting timestamp and accumulator contents, hence after every framing pass
over any sequence of input payloads. -/
theorem c6_residual_below_frame (samples rate ts50 : Nat) (buffer : ByteStr)
    (hs : 0 < samples) :
    ((drainLoop samples rate ts50 buffer).2.2).length < samples * 2 :=
  drainLoopF_residual buffer.length samples rate ts50 buffer hs (le_refl _)

/-- Witness for `c6_residual_below_frame` at the scenario-3 input. -/
theorem c6_residual_below_frame_witness :
    ((drainLoop 480 24000 0 (List.replicate 1920 0)).2.2).length < 480 * 2 :=
  c6_residual_below_frame 480 24000 0 (List.replicate 1920 0) (by decide)

/-- Claim C7, counterexample: with one live connection whose close() raises
(here because its `genai_session` attribute was never assigned),
`asyncio.gather` propagates the exception out of the `await` and
`connections.clear()` (line 184) is never executed: the registry is not left
empty. -/
theorem c7_counterexample_registry_not_cleared :
    (on_shutdown [(⟨false, false⟩, ⟨false, false⟩)]).2.1 =
      [(⟨false, false⟩, ⟨false, false⟩)] ∧
    (on_shutdown [(⟨false, false⟩, ⟨false, false⟩)]).2.2 =
      some PyError.attributeError := by decide

/-- Claim C7, amended: when every registered connection's close() completes
without raising, the shutdown handler attempts every close and leaves the
registry empty, with no exception. -/
theorem c7_shutdown_clears_registry (conns : List (ConnState × CloseBehavior))
    (h : ∀ c ∈ conns, (close c.1 c.2).2 = none) :
    on_shutdown conns = (conns.map (fun c => (close c.1 c.2).1), [], none) := by
  have hall : (conns.map (fun c => close c.1 c.2)).all (fun r => r.2.isNone)
      = true := by
    rw [List.all_eq_true]
    intro r hr
    rw [List.mem_map] at hr
    obtain ⟨c, hc, rfl⟩ := hr
    simp [h c hc]
  simp only [on_shutdown, hall, if_true, List.map_map]
  rfl

/-- Witness for `c7_shutdown_clears_registry`: three live connections whose
closes succeed leave the registry empty (end-to-end scenario 5). -/
theorem c7_shutdown_clears_registry_witness :
    on_shutdown [(⟨true, true⟩, ⟨false, false⟩), (⟨true, true⟩, ⟨false, false⟩),
        (⟨true, true⟩, ⟨false, false⟩)] =
      ([[CloseAction.closePC, CloseAction.closeGenai],
        [CloseAction.closePC, CloseAction.closeGenai],
        [CloseAction.closePC, CloseAction.closeGenai]], [], none) :=
  (c7_shutdown_clears_registry
    [(⟨true, true⟩, ⟨false, false⟩), (⟨true, true⟩, ⟨false, false⟩),
      (⟨true, true⟩, ⟨false, false⟩)] (by decide)).trans (by decide)

/-- Claim C8: after each emitted frame the loop suspends for AUDIO_PTIME = 20ms
(line 147), so the total cooperative delay requested — a lower bound on the
elapsed wall-clock time under the contract of `asyncio.sleep` — is at least
(N − 1) × 20ms for N emitted frames, for every pattern of response arrivals. -/
theorem c8_paced_at_least (resps : List Response) (out : List Event × Nat × ByteStr)
    (hrun : run_send_track resps (0, []) = some out) :
    (((putFrames out.1).length : ℚ) - 1) * AUDIO_PTIME ≤ totalSleep out.1 := by
  obtain ⟨_, _, _, _, hsleep⟩ := run_send_track_spec resps (0, []) out hrun
  rw [totalSleep, hsleep]
  have h1 : (((putFrames out.1).length : ℚ) - 1) ≤ ((putFrames out.1).length : ℚ) := by
    linarith
  have h2 : (0 : ℚ) ≤ AUDIO_PTIME := by rw [AUDIO_PTIME]; norm_num
  exact mul_le_mul_of_nonneg_right h1 h2

/-- Witness for `c8_paced_at_least`: two emitted frames, total requested delay
2 × 1/50 s ≥ (2 − 1) × 1/50 s. -/
theorem c8_paced_at_least_witness :
    (((putFrames [Event.put ⟨1, 50, [1, 2], 50, 50⟩, Event.sleep,
          Event.put ⟨1, 50, [3, 4], 100, 50⟩, Event.sleep]).length : ℚ) - 1) *
        AUDIO_PTIME ≤
      totalSleep [Event.put ⟨1, 50, [1, 2], 50, 50⟩, Event.sleep,
        Event.put ⟨1, 50, [3, 4], 100, 50⟩, Event.sleep] :=
  c8_paced_at_least [⟨some [1, 2, 3, 4], "audio/pcm;rate=50"⟩]
    ([Event.put ⟨1, 50, [1, 2], 50, 50⟩, Event.sleep,
      Event.put ⟨1, 50, [3, 4], 100, 50⟩, Event.sleep], 100, [])
    (by decide)

/-- Helper: the audio bytes of a sequence of all-audio responses at one mime
type are the concatenation of the payloads. -/
theorem audioBytes_map_some (payloads : List ByteStr) (mime : String) :
    audioBytes (payloads.map (fun d => ⟨some d, mime⟩)) = payloads.flatten := by
  induction payloads with
  | nil => rfl
  | cons d ds ih => simp [audioBytes_cons, ih]

/-- Claim C9: the framing loop conserves bytes — for every payload sequence at
a fixed parsed sample rate of at least 50 (so each framing pass terminates),
the concatenation of the emitted frames' payloads (each exactly samples * 2
bytes) followed by the residual accumulator equals the concatenation of the
inputs: no byte dropped, duplicated or reordered. -/
theorem c9_bytes_conserved (payloads : List ByteStr) (mime : String) (rate : Nat)
    (_hparse : parseSampleRate mime = some rate) (_hrate : 50 ≤ rate)
    (out : List Event × Nat × ByteStr)
    (hrun : run_send_track (payloads.map (fun d => ⟨some d, mime⟩)) (0, []) =
      some out) :
    flattenPayloads (putFrames out.1) ++ out.2.2 = payloads.flatten ∧
    ∀ f ∈ putFrames out.1, f.payload.length = f.samples * 2 := by
  obtain ⟨hmem, _, _, hcons, _⟩ :=
    run_send_track_spec (payloads.map (fun d => ⟨some d, mime⟩)) (0, []) out hrun
  constructor
  · rw [hcons]
    simp [audioBytes_map_some]
  · intro f hf
    obtain ⟨_, _, _, _, _, _, _, _, h3⟩ := hmem f hf
    exact h3

/-- Witness for `c9_bytes_conserved`: a 3-byte payload at rate 50 yields one
2-byte frame and a 1-byte residue whose concatenation is the input. -/
theorem c9_bytes_conserved_witness :
    flattenPayloads (putFrames [Event.put ⟨1, 50, [7, 8], 50, 50⟩,
        Event.sleep]) ++ [9] = ([[7, 8, 9]] : List ByteStr).flatten ∧
    ∀ f ∈ putFrames [Event.put ⟨1, 50, [7, 8], 50, 50⟩, Event.sleep],
      f.payload.length = f.samples * 2 :=
  c9_bytes_conserved [[7, 8, 9]] "audio/pcm;rate=50" 50 (by decide) (by decide)
    ([Event.put ⟨1, 50, [7, 8], 50, 50⟩, Event.sleep], 50, [9]) (by decide)

/-- Claim C10: a data-channel message arriving before `genai_session` has been
assigned makes the handler's guard raise AttributeError rather than silently
drop the message, whatever the state of the `pc` attribute. -/
theorem c10_on_message_raises :
    on_message ⟨false, false⟩ = MessageOutcome.raised PyError.attributeError ∧
    on_message ⟨true, false⟩ = MessageOutcome.raised PyError.attributeError ∧
    on_message ⟨false, false⟩ ≠ MessageOutcome.dropped ∧
    on_message ⟨true, false⟩ ≠ MessageOutcome.dropped := by decide

end RTProxy
